import Mathlib

/-!
# Verification of the Reliable-Data-Transport library (ReliableSocket.cpp/.h)

Shallow embedding of the reliable stop-and-wait socket implemented in
`src/ReliableSocket.cpp`.  The unreliable datagram channel is modelled as a
list of channel events (`ChanEv`): each blocking `recv` either delivers a raw
datagram (a list of bytes together with the elapsed round-trip time observed
by the caller) or reports a receive-deadline expiry (`EAGAIN`).  Every
operation of the class is embedded as a function from the connection record
and the event list to an `Option` result; `none` means the supplied event
trace was exhausted before the (unbounded) C loop terminated.  Results record
the updated connection, the values passed to `set_timeout_length` (the
`deadlines` lists), and what was handed to `send`.

Machine-integer caveats, justified against the source:
* `sequence_number` is a `uint32_t`; its increments are modelled `% 4294967296`.
* `curTimeout` in `send_seg_reliable` is a `uint32_t`; its doubling is
  modelled `% 4294967296`.
* `estimated_rtt`, `dev_rtt`, `current_rtt` are C `int`s but are nonnegative
  on every reachable state (initialized to 100/10/0, samples are elapsed
  milliseconds).  The updates in `set_estimated_rtt` multiply by the exact
  binary doubles 0.875, 0.125, 0.75, 0.25 and convert back to `int`
  (truncation toward zero, which is floor on nonnegative values, and the
  products are exact in double precision for in-range values), so the fields
  are modelled as `Nat` and each C assignment becomes a floor division.
-/

namespace RDT

/-- Wire tag of `RDT_SYN` (one byte, value 0). -/
def RDT_SYN : Nat := 0

/-- Wire tag of `RDT_SYNACK` (value 1). -/
def RDT_SYNACK : Nat := 1

/-- Wire tag of `RDT_ACK` (value 2). -/
def RDT_ACK : Nat := 2

/-- Wire tag of `RDT_DATA` (value 3). -/
def RDT_DATA : Nat := 3

/-- Wire tag of `RDT_CLOSE` (value 4). -/
def RDT_CLOSE : Nat := 4

/-- `ReliableSocket::MAX_SEG_SIZE` (1400 bytes). -/
def MAX_SEG_SIZE : Nat := 1400

/-- `ReliableSocket::WAIT_TIME` (4000 ms), the fixed close-wait deadline. -/
def WAIT_TIME : Nat := 4000

/-- `sizeof(RDTHeader)`: two `uint32_t` fields plus a one-byte tag, padded to
the 4-byte alignment of `uint32_t`. -/
def headerSize : Nat := 12

/-- `ReliableSocket::MAX_DATA_SIZE = MAX_SEG_SIZE - sizeof(RDTHeader)`. -/
def MAX_DATA_SIZE : Nat := MAX_SEG_SIZE - headerSize

/-- Modulus of `uint32_t` arithmetic. -/
def U32 : Nat := 4294967296

/-- Byte `i` of a received datagram.  The C receive buffers are `memset` to 0
before every `recv`, so bytes past the end of the datagram read as 0. -/
def byteAt (bs : List Nat) (i : Nat) : Nat := bs.getD i 0 % 256

/-- The `uint32_t` read at offset `off` of a received buffer, after `ntohl`
(network byte order is big-endian). -/
def decodeWord (bs : List Nat) (off : Nat) : Nat :=
  byteAt bs off * 16777216 + byteAt bs (off + 1) * 65536 +
    byteAt bs (off + 2) * 256 + byteAt bs (off + 3)

/-- Big-endian bytes of a `uint32_t`, as written by `htonl`. -/
def encodeWord (v : Nat) : List Nat :=
  [v / 16777216 % 256, v / 65536 % 256, v / 256 % 256, v % 256]

/-- `struct RDTHeader`, with the two `uint32_t` fields held as host-order
values (the embedding encodes/decodes network byte order at the wire). -/
structure RDTHeader where
  sequence_number : Nat
  ack_number : Nat
  type : Nat
deriving DecidableEq

/-- The header a receiver reads by casting the (zero-padded) receive buffer:
sequence number at offset 0, ack number at offset 4, type byte at offset 8. -/
def decodeHeader (bs : List Nat) : RDTHeader :=
  ⟨decodeWord bs 0, decodeWord bs 4, byteAt bs 8⟩

/-- The 12 bytes of an encoded `RDTHeader`: `htonl`-encoded sequence and ack
numbers, the type byte, and the three zero padding bytes (the send buffers
are zero-initialized). -/
def headerBytes (seqv ackv ty : Nat) : List Nat :=
  encodeWord seqv ++ encodeWord ackv ++ [ty % 256, 0, 0, 0]

/-- `enum connection_status`. -/
inductive ConnState
  | INIT
  | ESTABLISHED
  | FIN
  | CLOSED
deriving DecidableEq

/-- The private fields of `class ReliableSocket` (minus the raw socket
descriptor, which the channel model replaces).  `expected_sequence_number`
is declared and initialized by the source but never used afterwards. -/
structure Conn where
  sequence_number : Nat
  expected_sequence_number : Nat
  estimated_rtt : Nat
  dev_rtt : Nat
  current_rtt : Nat
  state : ConnState
deriving DecidableEq

/-- `ReliableSocket::ReliableSocket()`: sequence number 0, estimated RTT
100 ms, deviation 10 ms, state `INIT`. -/
def initConn : Conn :=
  ⟨0, 0, 100, 10, 0, ConnState.INIT⟩

/-- The adaptive timeout `estimated_rtt + 4 * dev_rtt` that the source
recomputes at every `set_timeout_length` call site. -/
def timeoutOf (c : Conn) : Nat := c.estimated_rtt + 4 * c.dev_rtt

/-- `ReliableSocket::set_estimated_rtt()`.  Returns the updated connection
and the deadline pushed into `set_timeout_length` immediately afterwards.
Each C statement truncates its double-precision result back to `int`:
`estimated_rtt *= (1 - 0.125)` is `e * 7 / 8`; `estimated_rtt +=
current_rtt * 0.125` adds `current_rtt / 8`; `dev_rtt = dev_rtt * (1 - .25)`
is `d * 3 / 4`; the absolute deviation is taken against the already-updated
`estimated_rtt`; `dev_rtt = dev_rtt + deviation * .25` adds `deviation / 4`. -/
def set_estimated_rtt (c : Conn) : Conn × Nat :=
  let e2 := c.estimated_rtt * 7 / 8 + c.current_rtt / 8
  let d1 := c.dev_rtt * 3 / 4
  let deviation := if c.current_rtt ≤ e2 then e2 - c.current_rtt else c.current_rtt - e2
  let d2 := d1 + deviation / 4
  let c' : Conn := { c with estimated_rtt := e2, dev_rtt := d2 }
  (c', timeoutOf c')

/-- One completed `send_seg_reliable` exchange seen from the estimator: store
the fresh sample in `current_rtt` and run `set_estimated_rtt`. -/
def rttUpdate (c : Conn) (sample : Nat) : Conn :=
  (set_estimated_rtt { c with current_rtt := sample }).1

/-- One blocking `recv` outcome on the channel: a deadline expiry (`EAGAIN`),
or a datagram of raw bytes, `elapsed` being the milliseconds measured between
the preceding `send` and this arrival. -/
inductive ChanEv
  | timeout
  | datagram (bytes : List Nat) (elapsed : Nat)
deriving DecidableEq

/-- The retry loop of `ReliableSocket::send_seg_reliable`: send, block for a
reply; on `EAGAIN` double the effective timeout (`uint32_t` arithmetic) —
seeding it from `(estimated_rtt + 4*dev_rtt) * 2` if the previous iteration
did not time out — push it via `set_timeout_length`, and retry.  Returns the
reply bytes, the elapsed time of the successful attempt, the number of
`send` calls, the deadlines pushed inside the loop, and the unconsumed
events. -/
def ssrLoop (base curTimeout : Nat) (lastTimeout : Bool) :
    List ChanEv → Option (List Nat × Nat × Nat × List Nat × List ChanEv)
  | [] => none
  | ChanEv.timeout :: rest =>
      let t := if lastTimeout then 2 * curTimeout % U32 else 2 * base % U32
      match ssrLoop base t true rest with
      | none => none
      | some (bs, el, sends, ds, rem) => some (bs, el, sends + 1, t :: ds, rem)
  | ChanEv.datagram bs el :: rest => some (bs, el, 1, [], rest)

/-- Result of a completed `send_seg_reliable` call. -/
structure SsrRes where
  conn : Conn
  reply : RDTHeader
  sends : Nat
  deadlines : List Nat
  rem : List ChanEv
deriving DecidableEq

/-- `ReliableSocket::send_seg_reliable`: set the deadline to
`estimated_rtt + 4*dev_rtt`, run the retry loop, record the elapsed time of
the successful attempt as `current_rtt` and feed it to `set_estimated_rtt`
(which pushes the next deadline).  `deadlines` lists every value handed to
`set_timeout_length` during the call, in order. -/
def send_seg_reliable (c : Conn) (evs : List ChanEv) : Option SsrRes :=
  match ssrLoop (timeoutOf c) 0 false evs with
  | none => none
  | some (bs, el, sends, ds, rem) =>
      some ⟨(set_estimated_rtt { c with current_rtt := el }).1, decodeHeader bs, sends,
        timeoutOf c :: ds ++ [(set_estimated_rtt { c with current_rtt := el }).2], rem⟩

/-- `ReliableSocket::send_timeout`: repeatedly send the prepared segment and
set the RTT-derived deadline until a `recv` times out (any arriving packet
restarts the loop).  Returns the number of sends, the pushed deadlines, and
the unconsumed events.  The estimator is not consulted for samples here. -/
def send_timeout (c : Conn) : List ChanEv → Option (Nat × List Nat × List ChanEv)
  | [] => none
  | ChanEv.timeout :: rest => some (1, [timeoutOf c], rest)
  | ChanEv.datagram _ _ :: rest =>
      match send_timeout c rest with
      | none => none
      | some (n, ds, rem) => some (n + 1, timeoutOf c :: ds, rem)

/-- Result of `connect_to_remote`.  `refused` is the early `return` taken when
the socket is not in `INIT` (nothing sent, nothing changed).  On `ok`:
`reply` is the decoded answer to the `SYN`, `loggedNotSynack` records whether
the non-fatal `perror` branch for a reply that is not `SYNACK` ran,
`synSends`/`ackSends` count the transmissions of the `SYN` and of the bare
`ACK`. -/
inductive ConnectRes
  | refused (c : Conn)
  | ok (c : Conn) (reply : RDTHeader) (loggedNotSynack : Bool) (synSends ackSends : Nat)
      (deadlines : List Nat) (rem : List ChanEv)
deriving DecidableEq

/-- `ReliableSocket::connect_to_remote` (active open): guard on `INIT`;
send `SYN` through `send_seg_reliable` (the call site pushes the RTT-derived
deadline first); if the reply does not decode as `SYNACK` only log
(`perror`), never abort; send a bare `ACK` through `send_timeout`; declare
the connection `ESTABLISHED`. -/
def connect_to_remote (c : Conn) (evs : List ChanEv) : Option ConnectRes :=
  if c.state ≠ ConnState.INIT then some (ConnectRes.refused c)
  else
    match send_seg_reliable c evs with
    | none => none
    | some r =>
        let logged := decide (r.reply.type ≠ RDT_SYNACK)
        match send_timeout r.conn r.rem with
        | none => none
        | some (n, ds2, rem2) =>
            some (ConnectRes.ok { r.conn with state := ConnState.ESTABLISHED } r.reply logged
              r.sends n (timeoutOf c :: r.deadlines ++ ds2) rem2)

/-- Result of `accept_connection`.  `fatalUsed` is the
`exit(EXIT_FAILURE)` taken when the socket is not in `INIT`; `fatalNotSyn`
is the `exit(EXIT_FAILURE)` taken when the first segment is not a `SYN`.
Both leave the connection untouched and send nothing. -/
inductive AcceptRes
  | fatalUsed (c : Conn)
  | fatalNotSyn (c : Conn)
  | ok (c : Conn) (synackSends : Nat) (deadlines : List Nat) (rem : List ChanEv)
deriving DecidableEq

/-- The `SYNACK` retry loop of `accept_connection`: push the RTT-derived
deadline, run `send_seg_reliable`, and stop as soon as the reply is an `ACK`
or a `DATA` segment.  Fuel-indexed; one event is consumed per iteration at
least, so `evs.length` fuel is always enough. -/
def acceptLoop : Nat → Conn → List ChanEv → Option (Conn × Nat × List Nat × List ChanEv)
  | 0, _, _ => none
  | fuel + 1, c, evs =>
      match send_seg_reliable c evs with
      | none => none
      | some r =>
          if r.reply.type = RDT_ACK ∨ r.reply.type = RDT_DATA then
            some (r.conn, r.sends, timeoutOf c :: r.deadlines, r.rem)
          else
            match acceptLoop fuel r.conn r.rem with
            | none => none
            | some (c2, s2, ds2, rem2) =>
                some (c2, r.sends + s2, (timeoutOf c :: r.deadlines) ++ ds2, rem2)

/-- `ReliableSocket::accept_connection` (passive open): guard on `INIT`;
block for the first datagram (the socket has no deadline yet, so a timeout
event is out of model here); `exit` unless it is a `SYN`; answer with
`SYNACK` until an `ACK` or `DATA` reply arrives; declare `ESTABLISHED`. -/
def accept_connection (c : Conn) (evs : List ChanEv) : Option AcceptRes :=
  if c.state ≠ ConnState.INIT then some (AcceptRes.fatalUsed c)
  else
    match evs with
    | [] => none
    | ChanEv.timeout :: _ => none
    | ChanEv.datagram bs _ :: rest =>
        if byteAt bs 8 ≠ RDT_SYN then some (AcceptRes.fatalNotSyn c)
        else
          match acceptLoop rest.length c rest with
          | none => none
          | some (c2, s, ds, rem) =>
              some (AcceptRes.ok { c2 with state := ConnState.ESTABLISHED } s ds rem)

/-- The single `DATA` segment `send_data` builds: a 1400-byte zeroed stack
buffer receives the header (current sequence number, ack 0, type `DATA`) and
then `memcpy(hdr + 1, data, length)` copies exactly `length` caller bytes
right after the header — with no check of `length` against `MAX_DATA_SIZE`,
so the resulting write extends past the buffer whenever
`length > MAX_DATA_SIZE`. -/
def dataSegBytes (seqv : Nat) (data : List Nat) (length : Nat) : List Nat :=
  headerBytes seqv 0 RDT_DATA ++ (List.range length).map (fun j => data.getD j 0)

/-- Result of `send_data`.  `refused` is the early `return` taken when the
connection is not `ESTABLISHED`.  On `ok`: `seg` is the segment that was
(re)transmitted, `rounds` the number of completed `send_seg_reliable`
exchanges the call needed. -/
inductive SendRes
  | refused (c : Conn)
  | ok (c : Conn) (seg : List Nat) (rounds : Nat) (deadlines : List Nat) (rem : List ChanEv)
deriving DecidableEq

/-- The ack-wait loop of `send_data`: run `send_seg_reliable` and stop only
when the reply is an `ACK` whose ack number equals the sequence number just
sent; any other reply (wrong type, or an `ACK` for a different number) is
discarded and the same segment resent. -/
def sendDataLoop (seqv : Nat) : Nat → Conn → List ChanEv → Option (Conn × Nat × List Nat × List ChanEv)
  | 0, _, _ => none
  | fuel + 1, c, evs =>
      match send_seg_reliable c evs with
      | none => none
      | some r =>
          if r.reply.type = RDT_ACK ∧ seqv = r.reply.ack_number then
            some (r.conn, 1, r.deadlines, r.rem)
          else
            match sendDataLoop seqv fuel r.conn r.rem with
            | none => none
            | some (c2, n, ds, rem2) => some (c2, n + 1, r.deadlines ++ ds, rem2)

/-- `ReliableSocket::send_data`: guard on `ESTABLISHED`; build the `DATA`
segment from the current sequence number and the caller's `length` bytes;
loop until the matching `ACK` arrives; finally increment the `uint32_t`
sequence number. -/
def send_data (c : Conn) (data : List Nat) (length : Nat) (evs : List ChanEv) :
    Option SendRes :=
  if c.state ≠ ConnState.ESTABLISHED then some (SendRes.refused c)
  else
    match sendDataLoop c.sequence_number evs.length c evs with
    | none => none
    | some (c2, n, ds, rem) =>
        some (SendRes.ok { c2 with sequence_number := (c2.sequence_number + 1) % U32 }
          (dataSegBytes c.sequence_number data length) n ds rem)

/-- The `ACK` segment `receive_data` answers a data-path segment with: both
header words carry the incoming segment's raw sequence-number field. -/
def mkEchoAck (v : Nat) : RDTHeader := ⟨v, v, RDT_ACK⟩

/-- The bare `ACK` (both words 0) sent on the `CLOSE` branch of
`receive_data`. -/
def bareAck : RDTHeader := ⟨0, 0, RDT_ACK⟩

/-- Result of the read loop of `receive_data`.  `ret` is the C
`recv_data_size` — an `int`, so `recv_count - sizeof(RDTHeader)` is negative
when the datagram is shorter than the header, in which case the terminating
`memcpy` receives a huge `size_t` (undefined behavior), flagged here by a
negative `ret`.  `buf` is what lands in the caller's buffer, `acksSent` the
acknowledgments transmitted, `seqAfter` the counter after the loop. -/
structure RecvLoopRes where
  ret : Int
  buf : List Nat
  stateAfter : ConnState
  seqAfter : Nat
  acksSent : List RDTHeader
  deadlines : List Nat
  rem : List ChanEv
deriving DecidableEq

/-- The read loop of `ReliableSocket::receive_data` (the receive deadline is
0, i.e. indefinite, so the main `recv` cannot time out — a timeout event
here is out of model).  A received `ACK` is silently dropped.  A `CLOSE`
triggers the bare-`ACK` `send_timeout` exchange and the transition to `FIN`
with no counter bump.  Every other type byte — `DATA`, but equally `SYN`,
`SYNACK` or a tag outside the five known values, and likewise short
datagrams whose missing header bytes read as zero — is acknowledged with an
echo `ACK`; it is delivered (bumping the `uint32_t` counter) only if its
sequence number equals the connection's counter, and dropped otherwise. -/
def receiveLoop (c : Conn) : List ChanEv → Option RecvLoopRes
  | [] => none
  | ChanEv.timeout :: _ => none
  | ChanEv.datagram bs _ :: rest =>
      if byteAt bs 8 = RDT_ACK then receiveLoop c rest
      else if byteAt bs 8 = RDT_CLOSE then
        match send_timeout c rest with
        | none => none
        | some (n, ds, rem) =>
            some ⟨0, [], ConnState.FIN, c.sequence_number, List.replicate n bareAck, ds, rem⟩
      else
        if decodeWord bs 0 = c.sequence_number then
          some ⟨(bs.length : Int) - (headerSize : Int), bs.drop headerSize,
            ConnState.ESTABLISHED, (c.sequence_number + 1) % U32,
            [mkEchoAck (decodeWord bs 0)], [], rest⟩
        else
          match receiveLoop c rest with
          | none => none
          | some r => some { r with acksSent := mkEchoAck (decodeWord bs 0) :: r.acksSent }

/-- Result of `receive_data`.  `refused` is the early `return 0` taken when
the connection is not `ESTABLISHED`. -/
inductive RecvRes
  | refused (c : Conn) (ret : Int)
  | ok (c : Conn) (ret : Int) (buf : List Nat) (acksSent : List RDTHeader)
      (deadlines : List Nat) (rem : List ChanEv)
deriving DecidableEq

/-- `ReliableSocket::receive_data`: guard on `ESTABLISHED`; clear the receive
deadline (`set_timeout_length(0)`, the leading 0 in `deadlines`); run the
read loop. -/
def receive_data (c : Conn) (evs : List ChanEv) : Option RecvRes :=
  if c.state ≠ ConnState.ESTABLISHED then some (RecvRes.refused c 0)
  else
    match receiveLoop c evs with
    | none => none
    | some r =>
        some (RecvRes.ok { c with state := r.stateAfter, sequence_number := r.seqAfter }
          r.ret r.buf r.acksSent (0 :: r.deadlines) r.rem)

/-- Phase 1 of `ReliableSocket::send_close` (initiator): retransmit `CLOSE`
through `send_seg_reliable` until the reply is an `ACK` or a `CLOSE` (the
simultaneous-close race accepts either). -/
def closeInitLoop : Nat → Conn → List ChanEv → Option (Conn × List ChanEv)
  | 0, _, _ => none
  | fuel + 1, c, evs =>
      match send_seg_reliable c evs with
      | none => none
      | some r =>
          if r.reply.type = RDT_ACK ∨ r.reply.type = RDT_CLOSE then some (r.conn, r.rem)
          else closeInitLoop fuel r.conn r.rem

/-- Phase 2 of `send_close`: block until an inbound `CLOSE` arrives;
deadline expiries and segments of any other type just continue the wait. -/
def waitForClose : List ChanEv → Option (List ChanEv)
  | [] => none
  | ChanEv.timeout :: rest => waitForClose rest
  | ChanEv.datagram bs _ :: rest =>
      if byteAt bs 8 = RDT_CLOSE then some rest else waitForClose rest

/-- Phase 3 of `send_close`, the bounded wait-for-silence state: each
iteration sends the final `ACK`, pushes the fixed `WAIT_TIME` deadline and
blocks.  An arriving `CLOSE` restarts the wait via `continue`; a nonempty
datagram of any other type falls off the inner `if` and restarts it as well;
the loop breaks — letting `close_connection` release the socket — exactly
when the deadline expires (`EAGAIN`).  A zero-byte `recv` would enter the
error branch whose outcome depends on the stale `errno`, so an empty
datagram is out of model.  Returns the number of `ACK` sends, the deadlines,
and the unconsumed events. -/
def finalWaitLoop : List ChanEv → Option (Nat × List Nat × List ChanEv)
  | [] => none
  | ChanEv.timeout :: rest => some (1, [WAIT_TIME], rest)
  | ChanEv.datagram bs _ :: rest =>
      if bs.length = 0 then none
      else
        match finalWaitLoop rest with
        | none => none
        | some (n, ds, rem) => some (n + 1, WAIT_TIME :: ds, rem)

/-- `ReliableSocket::send_close` (close initiator): the three phases in
sequence.  Returns the connection after phase 1 (the only phase that touches
the estimator), the number of final-`ACK` sends, the `WAIT_TIME` deadlines of
phase 3, and the unconsumed events. -/
def send_close (c : Conn) (evs : List ChanEv) : Option (Conn × Nat × List Nat × List ChanEv) :=
  match closeInitLoop evs.length c evs with
  | none => none
  | some (c1, rem1) =>
      match waitForClose rem1 with
      | none => none
      | some rem2 =>
          match finalWaitLoop rem2 with
          | none => none
          | some (n, ds, rem3) => some (c1, n, ds, rem3)

/-- The retry loop of `ReliableSocket::recv_close` (close responder):
retransmit `CLOSE` through `send_seg_reliable` until the reply is an `ACK`. -/
def recvCloseLoop : Nat → Conn → List ChanEv → Option (Conn × List ChanEv)
  | 0, _, _ => none
  | fuel + 1, c, evs =>
      match send_seg_reliable c evs with
      | none => none
      | some r =>
          if r.reply.type = RDT_ACK then some (r.conn, r.rem)
          else recvCloseLoop fuel r.conn r.rem

/-- `ReliableSocket::recv_close`: push the RTT-derived deadline once, then
run the retry loop. -/
def recv_close (c : Conn) (evs : List ChanEv) : Option (Conn × List ChanEv) :=
  recvCloseLoop evs.length c evs

/-- `ReliableSocket::close_connection`: initiator path unless the connection
is already in `FIN`, then responder path; both end in `CLOSED`. -/
def close_connection (c : Conn) (evs : List ChanEv) : Option (Conn × List ChanEv) :=
  if c.state ≠ ConnState.FIN then
    match send_close c evs with
    | none => none
    | some (c1, _, _, rem) => some ({ c1 with state := ConnState.CLOSED }, rem)
  else
    match recv_close c evs with
    | none => none
    | some (c1, rem) => some ({ c1 with state := ConnState.CLOSED }, rem)

/-- A session of consecutive `send_data` calls (payload irrelevant to the
counter), each driven by its own event trace; collects the sequence number
carried by each successful call. -/
def sendSession (c : Conn) : List (List ChanEv) → Option (Conn × List Nat)
  | [] => some (c, [])
  | tr :: trs =>
      match send_data c [] 0 tr with
      | some (SendRes.ok c' _ _ _ _) =>
          match sendSession c' trs with
          | none => none
          | some (c2, seqs) => some (c2, c.sequence_number :: seqs)
      | _ => none

/-- Prepend one echo `ACK` to the acknowledgment trace of a `receive_data`
result (refusals carry no trace and are unaffected). -/
def addAck (v : Nat) : RecvRes → RecvRes
  | RecvRes.ok c ret buf acks ds rem => RecvRes.ok c ret buf (mkEchoAck v :: acks) ds rem
  | r => r

/-- Projection of a `send_data` result to the fields the connection keeps
afterwards: estimated RTT, RTT deviation, sequence number, state. -/
def sendResStats : Option SendRes → Option (Nat × Nat × Nat × ConnState)
  | some (SendRes.ok c _ _ _ _) => some (c.estimated_rtt, c.dev_rtt, c.sequence_number, c.state)
  | _ => none

/-- A freshly constructed connection moved to `ESTABLISHED` (counter 0,
estimated RTT 100, deviation 10). -/
def cEst : Conn := { initConn with state := ConnState.ESTABLISHED }

/-- A connection in state `FIN`. -/
def cFin : Conn := { initConn with state := ConnState.FIN }

/-- A fresh connection carrying a pending RTT sample of 100 ms. -/
def rttC0 : Conn := { initConn with current_rtt := 100 }

/-- Wire bytes of an `ACK` acknowledging sequence number 0. -/
def ackOK : List Nat := [0, 0, 0, 0, 0, 0, 0, 0, 2]

/-- Wire bytes of an `ACK` acknowledging sequence number 1. -/
def ackFor1 : List Nat := [0, 0, 0, 0, 0, 0, 0, 1, 2]

/-- Wire bytes of an `ACK` acknowledging sequence number 5 (a mismatched
acknowledgment for a sender whose counter is 0). -/
def ackWrong : List Nat := [0, 0, 0, 0, 0, 0, 0, 5, 2]

/-- An uninterrupted `send_data` run: the matching `ACK` arrives at once. -/
def trB : List ChanEv := [ChanEv.datagram ackOK 100]

/-- A `send_data` run interrupted by one recoverable error: a mismatched
`ACK` first, then the matching one. -/
def trA : List ChanEv := [ChanEv.datagram ackWrong 100, ChanEv.datagram ackOK 100]

/-- A full-header datagram whose type byte 7 lies outside the five known
tags, sequence number 0, one payload byte 99. -/
def bsUnknownTag : List Nat := [0, 0, 0, 0, 0, 0, 0, 0, 7, 0, 0, 0, 99]

/-- A full-header datagram with unknown type byte 7 and sequence number 5. -/
def bsUnknown5 : List Nat := [0, 0, 0, 5, 0, 0, 0, 0, 7, 0, 0, 0]

/-- A 5-byte datagram, shorter than the 12-byte header. -/
def bsShort : List Nat := [0, 0, 0, 0, 0]

/-- A `DATA` datagram carrying sequence number 5 (out of order for a
receiver expecting 0) and no payload. -/
def bsOutOfOrder : List Nat := [0, 0, 0, 5, 0, 0, 0, 0, 3, 0, 0, 0]

/-- A `DATA` datagram carrying sequence number 0 and one payload byte 42. -/
def bsGood : List Nat := [0, 0, 0, 0, 0, 0, 0, 0, 3, 0, 0, 0, 42]

/-- A header-only `DATA` reply (9 wire bytes), used as a non-`SYNACK`
answer to a `SYN`. -/
def bsData : List Nat := [0, 0, 0, 0, 0, 0, 0, 0, 3]

/-- A header-only `CLOSE` datagram (9 wire bytes). -/
def closeBytes : List Nat := [0, 0, 0, 0, 0, 0, 0, 0, 4]

end RDT

namespace RDT

/-! ## General lemmas about the embedding -/

theorem floorNatDiv (a b : Nat) : ⌊(a : ℚ) / (b : ℚ)⌋ = ((a / b : Nat) : ℤ) := by
  have h := Rat.floor_intCast_div_natCast (a : ℤ) b
  simpa using h

theorem floorMul78 (a : Nat) : ⌊(a : ℚ) * (1 - 0.125)⌋ = ((a * 7 / 8 : Nat) : ℤ) := by
  have h : (a : ℚ) * (1 - 0.125) = ((a * 7 : Nat) : ℚ) / ((8 : Nat) : ℚ) := by
    push_cast
    ring_nf
  rw [h, floorNatDiv]

theorem floorMul18 (a : Nat) : ⌊(a : ℚ) * 0.125⌋ = ((a / 8 : Nat) : ℤ) := by
  have h : (a : ℚ) * 0.125 = ((a : Nat) : ℚ) / ((8 : Nat) : ℚ) := by
    push_cast
    ring_nf
  rw [h, floorNatDiv]

theorem floorMul34 (a : Nat) : ⌊(a : ℚ) * (1 - 0.25)⌋ = ((a * 3 / 4 : Nat) : ℤ) := by
  have h : (a : ℚ) * (1 - 0.25) = ((a * 3 : Nat) : ℚ) / ((4 : Nat) : ℚ) := by
    push_cast
    ring_nf
  rw [h, floorNatDiv]

theorem floorMul14 (a : Nat) : ⌊(a : ℚ) * 0.25⌋ = ((a / 4 : Nat) : ℤ) := by
  have h : (a : ℚ) * 0.25 = ((a : Nat) : ℚ) / ((4 : Nat) : ℚ) := by
    push_cast
    ring_nf
  rw [h, floorNatDiv]

theorem set_estimated_rtt_snd (c : Conn) :
    (set_estimated_rtt c).2 = timeoutOf (set_estimated_rtt c).1 := rfl

theorem ssrLoop_timeouts (base : Nat) (bs : List Nat) (el : Nat) (rest : List ChanEv) :
    ∀ (k cur : Nat), 2 ^ k * cur < U32 →
      ssrLoop base cur true (List.replicate k ChanEv.timeout ++ ChanEv.datagram bs el :: rest) =
        some (bs, el, k + 1, (List.range k).map (fun i => 2 ^ (i + 1) * cur), rest) := by
  intro k
  induction k with
  | zero =>
      intro cur _
      simp [ssrLoop]
  | succ k ih =>
      intro cur h
      have hpos : 1 ≤ 2 ^ k := Nat.one_le_two_pow
      have hle : 2 * cur ≤ 2 ^ (k + 1) * cur := by
        apply Nat.mul_le_mul_right
        rw [pow_succ]
        omega
      have h2cur : 2 * cur < U32 := lt_of_le_of_lt hle h
      have hih : 2 ^ k * (2 * cur) < U32 := by
        calc 2 ^ k * (2 * cur) = 2 ^ (k + 1) * cur := by ring
          _ < U32 := h
      have hfun : (fun i => 2 ^ (i + 1) * (2 * cur)) = fun i => 2 ^ (i + 1 + 1) * cur := by
        funext i
        ring
      simp only [List.replicate_succ, List.cons_append, ssrLoop, if_true, List.append_eq]
      rw [Nat.mod_eq_of_lt h2cur, ih (2 * cur) hih]
      simp [List.range_succ_eq_map, List.map_map, hfun, Function.comp]

/-! ## Claim theorems -/

/-- C2 (confirmed): within one `send_seg_reliable` call that sees `k`
consecutive deadline expiries before a reply, the deadlines pushed into the
channel are, in order: the RTT-derived `estimated_rtt + 4*dev_rtt` at entry;
then `2^(i+1)` times that value for the i-th retry — so the first retry uses
twice the RTT-derived timeout and every further retry doubles the previous
one; and finally the RTT-derived timeout of the estimator state updated with
the fresh sample, which is what the next call starts from (the doubled value
does not persist).  The bound keeps the `uint32_t` doubling below wraparound. -/
theorem claims_C2 (c : Conn) (k : Nat) (bs : List Nat) (el : Nat) (rest : List ChanEv)
    (hbound : 2 ^ k * timeoutOf c < U32) :
    send_seg_reliable c (List.replicate k ChanEv.timeout ++ ChanEv.datagram bs el :: rest) =
      some ⟨rttUpdate c el, decodeHeader bs, k + 1,
        timeoutOf c :: ((List.range k).map (fun i => 2 ^ (i + 1) * timeoutOf c) ++
          [timeoutOf (rttUpdate c el)]), rest⟩ := by
  cases k with
  | zero =>
      simp [send_seg_reliable, ssrLoop, rttUpdate, set_estimated_rtt_snd]
  | succ k =>
      have hpos : 1 ≤ 2 ^ k := Nat.one_le_two_pow
      have hle : 2 * timeoutOf c ≤ 2 ^ (k + 1) * timeoutOf c := by
        apply Nat.mul_le_mul_right
        rw [pow_succ]
        omega
      have h2b : 2 * timeoutOf c < U32 := lt_of_le_of_lt hle hbound
      have hih : 2 ^ k * (2 * timeoutOf c) < U32 := by
        calc 2 ^ k * (2 * timeoutOf c) = 2 ^ (k + 1) * timeoutOf c := by ring
          _ < U32 := hbound
      have hfun : (fun i => 2 ^ (i + 1) * (2 * timeoutOf c)) =
          fun i => 2 ^ (i + 1 + 1) * timeoutOf c := by
        funext i
        ring
      simp only [send_seg_reliable, List.replicate_succ, List.cons_append, ssrLoop,
        Bool.false_eq_true, if_false, if_true, List.append_eq]
      rw [Nat.mod_eq_of_lt h2b, ssrLoop_timeouts _ _ _ _ k (2 * timeoutOf c) hih]
      simp [List.range_succ_eq_map, List.map_map, hfun, Function.comp, rttUpdate,
        set_estimated_rtt_snd]

/-- Witness for C2: from the fresh estimator state (timeout 140 ms), two
consecutive expiries push 280 then 560, and the successful exchange pushes
the updated estimate 127. -/
theorem claims_C2_witness :
    send_seg_reliable cEst
        (List.replicate 2 ChanEv.timeout ++ ChanEv.datagram ackOK 100 :: []) =
      some ⟨rttUpdate cEst 100, decodeHeader ackOK, 2 + 1,
        timeoutOf cEst :: ((List.range 2).map (fun i => 2 ^ (i + 1) * timeoutOf cEst) ++
          [timeoutOf (rttUpdate cEst 100)]), []⟩ :=
  claims_C2 cEst 2 ackOK 100 [] (by decide)

/-- C1 (amended): on each fresh round-trip sample the estimator performs the
classic update in C `int` arithmetic, i.e. with every intermediate result
truncated: `estimated_rtt` becomes `floor(estimated_rtt * (1 - 0.125)) +
floor(R * 0.125)`, `dev_rtt` becomes `floor(dev_rtt * (1 - 0.25)) +
floor(|R - estimated_rtt'| * 0.25)` where `estimated_rtt'` is the
already-updated value, and immediately afterwards the channel receive
deadline is set to `estimated_rtt' + 4 * dev_rtt'`; state and sequence
number are untouched. -/
theorem claims_C1_amended (c : Conn) :
    (((set_estimated_rtt c).1.estimated_rtt : ℤ) =
        ⌊(c.estimated_rtt : ℚ) * (1 - 0.125)⌋ + ⌊(c.current_rtt : ℚ) * 0.125⌋) ∧
    (((set_estimated_rtt c).1.dev_rtt : ℤ) =
        ⌊(c.dev_rtt : ℚ) * (1 - 0.25)⌋ +
          ⌊|(c.current_rtt : ℚ) - ((set_estimated_rtt c).1.estimated_rtt : ℚ)| * 0.25⌋) ∧
    ((set_estimated_rtt c).2 =
        (set_estimated_rtt c).1.estimated_rtt + 4 * (set_estimated_rtt c).1.dev_rtt) ∧
    (set_estimated_rtt c).1.state = c.state ∧
    (set_estimated_rtt c).1.sequence_number = c.sequence_number := by
  simp only [set_estimated_rtt, timeoutOf]
  refine ⟨?_, ?_, trivial, trivial, trivial⟩
  · rw [floorMul78, floorMul18]
    push_cast
    ring
  · rw [floorMul34]
    rcases le_or_lt c.current_rtt (c.estimated_rtt * 7 / 8 + c.current_rtt / 8) with h | h
    · rw [if_pos h]
      have habs : |(c.current_rtt : ℚ) - ((c.estimated_rtt * 7 / 8 + c.current_rtt / 8 : Nat) : ℚ)| =
          (((c.estimated_rtt * 7 / 8 + c.current_rtt / 8) - c.current_rtt : Nat) : ℚ) := by
        rw [abs_sub_comm, abs_of_nonneg]
        · rw [Nat.cast_sub h]
        · have := (Nat.cast_le (α := ℚ)).mpr h
          linarith
      rw [habs, floorMul14]
      push_cast
      ring
    · rw [if_neg (not_le.mpr h)]
      have habs : |(c.current_rtt : ℚ) - ((c.estimated_rtt * 7 / 8 + c.current_rtt / 8 : Nat) : ℚ)| =
          ((c.current_rtt - (c.estimated_rtt * 7 / 8 + c.current_rtt / 8) : Nat) : ℚ) := by
        rw [abs_of_nonneg]
        · rw [Nat.cast_sub h.le]
        · have := (Nat.cast_le (α := ℚ)).mpr h.le
          linarith
      rw [habs, floorMul14]
      push_cast
      ring

/-- Counterexample for C1 as stated: with `estimated_rtt = 100`, `dev_rtt =
10` and a fresh sample `R = 100`, the exact update would give `100 * (1 -
0.125) + 100 * 0.125 = 100`, but the code's integer arithmetic yields 99. -/
theorem claims_C1_cex :
    ¬ (((set_estimated_rtt rttC0).1.estimated_rtt : ℚ) =
        (rttC0.estimated_rtt : ℚ) * (1 - 0.125) + (rttC0.current_rtt : ℚ) * 0.125) := by
  have h1 : (set_estimated_rtt rttC0).1.estimated_rtt = 99 := rfl
  have h2 : rttC0.estimated_rtt = 100 := rfl
  have h3 : rttC0.current_rtt = 100 := rfl
  rw [h1, h2, h3]
  norm_num

end RDT

namespace RDT

theorem rttUpdate_fields (c : Conn) (s : Nat) :
    (rttUpdate c s).state = c.state ∧
    (rttUpdate c s).sequence_number = c.sequence_number ∧
    (rttUpdate c s).expected_sequence_number = c.expected_sequence_number := by
  simp [rttUpdate, set_estimated_rtt]

theorem ssr_conn_update (c : Conn) (evs : List ChanEv) (r : SsrRes)
    (h : send_seg_reliable c evs = some r) : ∃ el, r.conn = rttUpdate c el := by
  unfold send_seg_reliable at h
  split at h
  · cases h
  · rename_i bs el sends ds rem heq
    injection h with h
    subst h
    exact ⟨el, rfl⟩

theorem foldl_rttUpdate_fields (samples : List Nat) :
    ∀ c : Conn, (samples.foldl rttUpdate c).state = c.state ∧
      (samples.foldl rttUpdate c).sequence_number = c.sequence_number := by
  induction samples with
  | nil =>
      intro c
      exact ⟨rfl, rfl⟩
  | cons s samples ih =>
      intro c
      have h1 := ih (rttUpdate c s)
      have h2 := rttUpdate_fields c s
      simp only [List.foldl_cons]
      exact ⟨h1.1.trans h2.1, h1.2.trans h2.2.1⟩

theorem sendDataLoop_fold (seqv : Nat) :
    ∀ (fuel : Nat) (c : Conn) (evs : List ChanEv) (c2 : Conn) (n : Nat) (ds : List Nat)
      (rem : List ChanEv), sendDataLoop seqv fuel c evs = some (c2, n, ds, rem) →
      ∃ samples : List Nat, samples.length = n ∧ c2 = samples.foldl rttUpdate c := by
  intro fuel
  induction fuel with
  | zero =>
      intro c evs c2 n ds rem h
      cases h
  | succ fuel ih =>
      intro c evs c2 n ds rem h
      simp only [sendDataLoop] at h
      split at h
      · cases h
      · rename_i r hm
        obtain ⟨el, hel⟩ := ssr_conn_update c evs r hm
        split at h
        · injection h with h
          injection h with h1 h
          injection h with h2 h
          subst h1
          subst h2
          exact ⟨[el], rfl, by simp [hel]⟩
        · split at h
          · cases h
          · rename_i v c3 n3 ds3 rem3 hm2
            injection h with h
            injection h with h1 h
            injection h with h2 h
            subst h1
            subst h2
            obtain ⟨samples, hlen, hfold⟩ := ih r.conn r.rem c3 n3 ds3 rem3 hm2
            refine ⟨el :: samples, by simp [hlen], ?_⟩
            simp only [List.foldl_cons]
            rw [hfold, hel]

theorem send_data_ok (c : Conn) (data : List Nat) (len : Nat) (evs : List ChanEv)
    (c' : Conn) (seg : List Nat) (n : Nat) (ds : List Nat) (rem : List ChanEv)
    (h : send_data c data len evs = some (SendRes.ok c' seg n ds rem)) :
    ∃ samples : List Nat, samples.length = n ∧
      c' = { samples.foldl rttUpdate c with
             sequence_number := (c.sequence_number + 1) % U32 } := by
  by_cases hst : c.state = ConnState.ESTABLISHED
  · unfold send_data at h
    rw [if_neg (by simp [hst])] at h
    split at h
    · cases h
    · rename_i v c2 n2 ds2 rem2 hm
      injection h with h
      injection h with h1 h2 h3 h4 h5
      subst h3
      obtain ⟨samples, hlen, hfold⟩ := sendDataLoop_fold c.sequence_number evs.length
        c evs c2 n2 ds2 rem2 hm
      refine ⟨samples, hlen, ?_⟩
      rw [← h1, hfold]
      congr 1
      rw [(foldl_rttUpdate_fields samples c).2]
  · unfold send_data at h
    rw [if_pos hst] at h
    cases h

theorem send_data_ok_fields (c : Conn) (data : List Nat) (len : Nat) (evs : List ChanEv)
    (c' : Conn) (seg : List Nat) (n : Nat) (ds : List Nat) (rem : List ChanEv)
    (h : send_data c data len evs = some (SendRes.ok c' seg n ds rem)) :
    c'.state = c.state ∧ c'.sequence_number = (c.sequence_number + 1) % U32 := by
  obtain ⟨samples, _, hc⟩ := send_data_ok c data len evs c' seg n ds rem h
  subst hc
  exact ⟨(foldl_rttUpdate_fields samples c).1, rfl⟩

theorem send_timeout_pos (c : Conn) :
    ∀ (evs : List ChanEv) (n : Nat) (ds : List Nat) (rem : List ChanEv),
      send_timeout c evs = some (n, ds, rem) → 1 ≤ n := by
  intro evs
  induction evs with
  | nil =>
      intro n ds rem h
      cases h
  | cons ev rest ih =>
      intro n ds rem h
      cases ev with
      | timeout =>
          simp only [send_timeout] at h
          injection h with h
          injection h with h1 h
          omega
      | datagram bs el =>
          simp only [send_timeout] at h
          split at h
          · cases h
          · rename_i v n0 ds0 rem0 hm
            injection h with h
            injection h with h1 h
            omega

theorem receiveLoop_counter (c : Conn) :
    ∀ (evs : List ChanEv) (r : RecvLoopRes), receiveLoop c evs = some r →
      (r.stateAfter = ConnState.ESTABLISHED ∧ r.seqAfter = (c.sequence_number + 1) % U32) ∨
      (r.stateAfter = ConnState.FIN ∧ r.seqAfter = c.sequence_number) := by
  intro evs
  induction evs with
  | nil =>
      intro r h
      cases h
  | cons ev rest ih =>
      intro r h
      cases ev with
      | timeout => cases h
      | datagram bs el =>
          simp only [receiveLoop] at h
          by_cases h2 : byteAt bs 8 = RDT_ACK
          · rw [if_pos h2] at h
            exact ih r h
          · rw [if_neg h2] at h
            by_cases h4 : byteAt bs 8 = RDT_CLOSE
            · rw [if_pos h4] at h
              split at h
              · cases h
              · rename_i v n ds rem hst
                injection h with h
                subst h
                right
                exact ⟨rfl, rfl⟩
            · rw [if_neg h4] at h
              by_cases hv : decodeWord bs 0 = c.sequence_number
              · rw [if_pos hv] at h
                injection h with h
                subst h
                left
                exact ⟨rfl, rfl⟩
              · rw [if_neg hv] at h
                split at h
                · cases h
                · rename_i r0 hr
                  injection h with h
                  subst h
                  rcases ih r0 hr with ⟨ha, hb⟩ | ⟨ha, hb⟩
                  · exact Or.inl ⟨ha, hb⟩
                  · exact Or.inr ⟨ha, hb⟩

/-- C3 (confirmed): in state `ESTABLISHED`, a `DATA` segment whose sequence
number differs from the connection's counter is answered with an `ACK`
carrying that segment's sequence number (in both header words), its payload
is not copied to the caller, the counter is not advanced, and `receive_data`
behaves exactly as if it kept waiting on the remaining events. -/
theorem claims_C3 (c : Conn) (bs : List Nat) (el : Nat) (rest : List ChanEv)
    (hst : c.state = ConnState.ESTABLISHED) (hty : byteAt bs 8 = RDT_DATA)
    (hseq : decodeWord bs 0 ≠ c.sequence_number) :
    receive_data c (ChanEv.datagram bs el :: rest) =
      (receive_data c rest).map (addAck (decodeWord bs 0)) := by
  have hg : ¬ (c.state ≠ ConnState.ESTABLISHED) := by simp [hst]
  unfold receive_data
  rw [if_neg hg, if_neg hg]
  simp only [receiveLoop]
  rw [if_neg (by rw [hty]; decide), if_neg (by rw [hty]; decide), if_neg hseq]
  cases hr : receiveLoop c rest with
  | none => simp
  | some r => simp [addAck]

/-- Witness for C3: a receiver expecting sequence number 0 gets a `DATA`
segment numbered 5; the run equals the run without that segment, with the
echo `ACK` for 5 prepended to the acknowledgment trace. -/
theorem claims_C3_witness :
    receive_data cEst [ChanEv.datagram bsOutOfOrder 0, ChanEv.datagram bsGood 0] =
      (receive_data cEst [ChanEv.datagram bsGood 0]).map (addAck (decodeWord bsOutOfOrder 0)) :=
  claims_C3 cEst bsOutOfOrder 0 [ChanEv.datagram bsGood 0] rfl (by decide) (by decide)

/-- C5 (amended): `receive_data` has no unrecognized-segment handling.  Any
datagram whose type byte is neither `ACK` nor `CLOSE` — a tag outside the
five known values just as much as a `DATA` tag, and equally a datagram
shorter than the header, whose missing bytes read as zero — is treated as
data: it is acknowledged with an `ACK` echoing its sequence-number field,
and it is delivered to the application (with payload size
`recv_count - sizeof(RDTHeader)`, which is negative for a short datagram
and is then passed to `memcpy`) exactly when that sequence number equals
the connection's counter; otherwise it is dropped and the loop keeps
waiting. -/
theorem claims_C5_amended (c : Conn) (bs : List Nat) (el : Nat) (rest : List ChanEv)
    (hst : c.state = ConnState.ESTABLISHED)
    (hty2 : byteAt bs 8 ≠ RDT_ACK) (hty4 : byteAt bs 8 ≠ RDT_CLOSE) :
    (decodeWord bs 0 = c.sequence_number →
      receive_data c (ChanEv.datagram bs el :: rest) =
        some (RecvRes.ok
          { c with state := ConnState.ESTABLISHED,
                   sequence_number := (c.sequence_number + 1) % U32 }
          ((bs.length : Int) - (headerSize : Int)) (bs.drop headerSize)
          [mkEchoAck (decodeWord bs 0)] [0] rest)) ∧
    (decodeWord bs 0 ≠ c.sequence_number →
      receive_data c (ChanEv.datagram bs el :: rest) =
        (receive_data c rest).map (addAck (decodeWord bs 0))) := by
  have hg : ¬ (c.state ≠ ConnState.ESTABLISHED) := by simp [hst]
  constructor
  · intro hv
    unfold receive_data
    rw [if_neg hg]
    simp only [receiveLoop]
    rw [if_neg hty2, if_neg hty4, if_pos hv]
  · intro hv
    unfold receive_data
    rw [if_neg hg, if_neg hg]
    simp only [receiveLoop]
    rw [if_neg hty2, if_neg hty4, if_neg hv]
    cases hr : receiveLoop c rest with
    | none => simp
    | some r => simp [addAck]

/-- Witness for C5 (amended): the unknown tag 7 with matching sequence
number 0 is delivered, and with sequence number 5 it is acknowledged and
dropped. -/
theorem claims_C5_amended_witness :
    (receive_data cEst [ChanEv.datagram bsUnknownTag 0] =
      some (RecvRes.ok
        { cEst with state := ConnState.ESTABLISHED,
                    sequence_number := (cEst.sequence_number + 1) % U32 }
        ((bsUnknownTag.length : Int) - (headerSize : Int)) (bsUnknownTag.drop headerSize)
        [mkEchoAck (decodeWord bsUnknownTag 0)] [0] [])) ∧
    (receive_data cEst [ChanEv.datagram bsUnknown5 0] =
      (receive_data cEst []).map (addAck (decodeWord bsUnknown5 0))) :=
  ⟨(claims_C5_amended cEst bsUnknownTag 0 [] rfl (by decide) (by decide)).1 (by decide),
   (claims_C5_amended cEst bsUnknown5 0 [] rfl (by decide) (by decide)).2 (by decide)⟩

/-- Counterexample for C5 as stated: a segment with type tag 7 (outside the
five known values) is not ignored — it is acknowledged and even delivered
(return value 1, payload byte 99 copied out, counter advanced); and a 5-byte
datagram (shorter than the 12-byte header) is likewise acknowledged and
accepted with the negative payload size -7 handed to the copy, rather than
being ignored. -/
theorem claims_C5_cex :
    receive_data cEst [ChanEv.datagram bsUnknownTag 0] =
      some (RecvRes.ok { cEst with sequence_number := 1 } 1 [99] [mkEchoAck 0] [0] []) ∧
    receive_data cEst [ChanEv.datagram bsShort 0] =
      some (RecvRes.ok { cEst with sequence_number := 1 } (-7) [] [mkEchoAck 0] [0] []) ∧
    (-7 : Int) < 0 := by
  refine ⟨by decide, by decide, by decide⟩

end RDT

namespace RDT

theorem range_map_mod (m : Nat) :
    ∀ L : Nat, L ≤ m → (List.range L).map (fun n => (0 + n) % m) = List.range L := by
  intro L
  induction L with
  | zero =>
      intro _
      rfl
  | succ L ih =>
      intro hL
      rw [List.range_succ, List.map_append, ih (by omega)]
      simp only [List.map_cons, List.map_nil, Nat.zero_add]
      rw [Nat.mod_eq_of_lt (by omega)]

theorem sendSession_seqs :
    ∀ (trs : List (List ChanEv)) (c : Conn), c.state = ConnState.ESTABLISHED →
      c.sequence_number < U32 →
      ∀ (c2 : Conn) (seqs : List Nat), sendSession c trs = some (c2, seqs) →
        seqs = (List.range trs.length).map (fun n => (c.sequence_number + n) % U32) := by
  intro trs
  induction trs with
  | nil =>
      intro c hst hlt c2 seqs h
      simp only [sendSession] at h
      injection h with h
      injection h with h1 h2
      rw [← h2]
      rfl
  | cons tr trs ih =>
      intro c hst hlt c2 seqs h
      simp only [sendSession] at h
      split at h
      · rename_i c' seg n ds rem hsd
        split at h
        · cases h
        · rename_i v c3 seqs0 hs2
          injection h with h
          injection h with h1 h2
          have hf := send_data_ok_fields c [] 0 tr c' seg n ds rem hsd
          have hst' : c'.state = ConnState.ESTABLISHED := by rw [hf.1, hst]
          have hlt' : c'.sequence_number < U32 :=
            hf.2 ▸ Nat.mod_lt _ (by norm_num [U32])
          have hs := ih c' hst' hlt' c3 seqs0 hs2
          rw [← h2, hs, hf.2, List.length_cons, List.range_succ_eq_map, List.map_cons,
            List.map_map]
          have hfun : ((fun n => (c.sequence_number + n) % U32) ∘ Nat.succ) =
              fun n => ((c.sequence_number + 1) % U32 + n) % U32 := by
            funext n
            simp only [Function.comp, U32]
            omega
          rw [hfun]
          congr 1
          simp only [U32] at hlt ⊢
          omega
      · cases h

/-- C4 (confirmed): the connection's sequence number starts at 0; every
successfully acknowledged `send_data` sets it to its `uint32_t` successor;
every accepted in-order data unit in the read loop of `receive_data` does
the same (while the `CLOSE` path leaves it untouched); and in a session of
`N ≤ 2^32` successfully acknowledged sends starting from a fresh
`ESTABLISHED` connection, the Nth send (counting from 1) carries sequence
number exactly N-1. -/
theorem claims_C4 :
    initConn.sequence_number = 0 ∧
    (∀ (c : Conn) (data : List Nat) (len : Nat) (evs : List ChanEv) (c' : Conn)
        (seg : List Nat) (n : Nat) (ds : List Nat) (rem : List ChanEv),
        send_data c data len evs = some (SendRes.ok c' seg n ds rem) →
        c'.sequence_number = (c.sequence_number + 1) % U32) ∧
    (∀ (c : Conn) (evs : List ChanEv) (r : RecvLoopRes), receiveLoop c evs = some r →
        (r.stateAfter = ConnState.ESTABLISHED ∧ r.seqAfter = (c.sequence_number + 1) % U32) ∨
        (r.stateAfter = ConnState.FIN ∧ r.seqAfter = c.sequence_number)) ∧
    (∀ (trs : List (List ChanEv)) (c2 : Conn) (seqs : List Nat), trs.length ≤ U32 →
        sendSession cEst trs = some (c2, seqs) → seqs = List.range trs.length) := by
  refine ⟨rfl, ?_, ?_, ?_⟩
  · intro c data len evs c' seg n ds rem h
    exact (send_data_ok_fields c data len evs c' seg n ds rem h).2
  · intro c evs r h
    exact receiveLoop_counter c evs r h
  · intro trs c2 seqs hlen h
    have hs := sendSession_seqs trs cEst rfl (by norm_num [cEst, initConn, U32]) c2 seqs h
    have h0 : cEst.sequence_number = 0 := rfl
    rw [hs, h0, range_map_mod U32 trs.length hlen]

/-- Witness for C4: one acknowledged send bumps the counter from 0 to 1, and
a two-send session carries the sequence numbers 0 and 1. -/
theorem claims_C4_witness :
    ({ cEst with
        sequence_number := 1, estimated_rtt := 99, dev_rtt := 7, current_rtt := 100 } :
      Conn).sequence_number = (cEst.sequence_number + 1) % U32 ∧
    ([0, 1] : List Nat) = List.range 2 :=
  ⟨claims_C4.2.1 cEst [] 0 trB
      { cEst with sequence_number := 1, estimated_rtt := 99, dev_rtt := 7, current_rtt := 100 }
      (dataSegBytes 0 [] 0) 1 [140, 127] [] (by decide),
   claims_C4.2.2.2 [[ChanEv.datagram ackOK 100], [ChanEv.datagram ackFor1 100]]
      { cEst with sequence_number := 2, estimated_rtt := 98, dev_rtt := 5, current_rtt := 100 }
      [0, 1] (by decide) (by decide)⟩

/-- C9 (amended): no operation partially mutates the lifecycle state or the
sequence number while recovering from a protocol-recoverable error: a
successful `send_data` always returns with the entry state and the counter
bumped exactly once, no matter how many mismatched or wrong-typed replies
were discarded on the way, and `receive_data` leaves the counter and state
exactly as an undisturbed run would.  The RTT statistics, however, are
updated once per completed reliable exchange — including exchanges whose
reply is then discarded as recoverable — so after recovery they equal the
fold of the estimator update over all samples taken, not the value of an
uninterrupted run; `receive_data` never touches them. -/
theorem claims_C9_amended :
    (∀ (c : Conn) (data : List Nat) (len : Nat) (evs : List ChanEv) (c' : Conn)
        (seg : List Nat) (n : Nat) (ds : List Nat) (rem : List ChanEv),
        send_data c data len evs = some (SendRes.ok c' seg n ds rem) →
        ∃ samples : List Nat, samples.length = n ∧
          c' = { samples.foldl rttUpdate c with
                 sequence_number := (c.sequence_number + 1) % U32 }) ∧
    (∀ (c : Conn) (evs : List ChanEv) (c' : Conn) (ret : Int) (buf : List Nat)
        (acks : List RDTHeader) (ds : List Nat) (rem : List ChanEv),
        receive_data c evs = some (RecvRes.ok c' ret buf acks ds rem) →
        c'.estimated_rtt = c.estimated_rtt ∧ c'.dev_rtt = c.dev_rtt ∧
        c'.current_rtt = c.current_rtt ∧
        ((c'.state = ConnState.ESTABLISHED ∧
            c'.sequence_number = (c.sequence_number + 1) % U32) ∨
         (c'.state = ConnState.FIN ∧ c'.sequence_number = c.sequence_number))) := by
  constructor
  · intro c data len evs c' seg n ds rem h
    exact send_data_ok c data len evs c' seg n ds rem h
  · intro c evs c' ret buf acks ds rem h
    by_cases hst : c.state = ConnState.ESTABLISHED
    · unfold receive_data at h
      rw [if_neg (by simp [hst])] at h
      split at h
      · cases h
      · rename_i r hr
        injection h with h
        injection h with h1 h2 h3 h4 h5 h6
        subst h1
        exact ⟨rfl, rfl, rfl, receiveLoop_counter c evs r hr⟩
    · unfold receive_data at h
      rw [if_pos hst] at h
      cases h

/-- Witness for C9 (amended): the uninterrupted one-exchange send from the
fresh established connection ends with exactly one estimator update. -/
theorem claims_C9_amended_witness :
    ∃ samples : List Nat, samples.length = 1 ∧
      ({ cEst with
          sequence_number := 1, estimated_rtt := 99, dev_rtt := 7, current_rtt := 100 } :
        Conn) =
        { samples.foldl rttUpdate cEst with
          sequence_number := (cEst.sequence_number + 1) % U32 } :=
  claims_C9_amended.1 cEst [] 0 trB
    { cEst with sequence_number := 1, estimated_rtt := 99, dev_rtt := 7, current_rtt := 100 }
    (dataSegBytes 0 [] 0) 1 [140, 127] [] (by decide)

/-- Counterexample for C9 as stated: recovering from one recoverable error
does change the connection's fields.  From the fresh `ESTABLISHED`
connection, a `send_data` whose first reply is an `ACK` with the wrong ack
number (then the right one) ends with `estimated_rtt = 98`, `dev_rtt = 5`,
while the run in which no recoverable error interrupted the exchange ends
with `estimated_rtt = 99`, `dev_rtt = 7` — the RTT statistics are not "the
same as if no recoverable error had interrupted the exchange" (state and
sequence number do agree). -/
theorem claims_C9_cex :
    sendResStats (send_data cEst [] 0 trA) = some (98, 5, 1, ConnState.ESTABLISHED) ∧
    sendResStats (send_data cEst [] 0 trB) = some (99, 7, 1, ConnState.ESTABLISHED) ∧
    sendResStats (send_data cEst [] 0 trA) ≠ sendResStats (send_data cEst [] 0 trB) :=
  ⟨by decide, by decide, by decide⟩

end RDT

namespace RDT

/-- C6 (confirmed): on the active-open path, a reply to the initial `SYN`
that does not decode as `SYNACK` is only logged (`perror`), not treated as a
failure: regardless of the reply's type, `connect_to_remote` still sends the
bare `ACK` (at least one transmission through `send_timeout`) and moves the
connection to `ESTABLISHED`, its sequence number untouched. -/
theorem claims_C6 (c : Conn) (evs : List ChanEv) (c' : Conn) (reply : RDTHeader)
    (logged : Bool) (synS ackS : Nat) (ds : List Nat) (rem : List ChanEv)
    (hst : c.state = ConnState.INIT)
    (h : connect_to_remote c evs = some (ConnectRes.ok c' reply logged synS ackS ds rem))
    (hrep : reply.type ≠ RDT_SYNACK) :
    logged = true ∧ c'.state = ConnState.ESTABLISHED ∧ 1 ≤ ackS ∧
    c'.sequence_number = c.sequence_number := by
  unfold connect_to_remote at h
  rw [if_neg (by simp [hst])] at h
  split at h
  · cases h
  · rename_i r hssr
    split at h
    · cases h
    · rename_i v n ds2 rem2 hstt
      injection h with h
      injection h with h1 h2 h3 h4 h5 h6 h7
      subst h1
      subst h2
      subst h3
      subst h5
      refine ⟨decide_eq_true hrep, rfl, send_timeout_pos r.conn r.rem n ds2 rem2 hstt, ?_⟩
      obtain ⟨el, hel⟩ := ssr_conn_update c evs r hssr
      calc ({ r.conn with state := ConnState.ESTABLISHED } : Conn).sequence_number
          = r.conn.sequence_number := rfl
        _ = c.sequence_number := by rw [hel]; exact (rttUpdate_fields c el).2.1

/-- Witness for C6: a `DATA` reply to the `SYN` (type 3, not `SYNACK`) is
logged, the bare `ACK` goes out once, and the connection is established. -/
theorem claims_C6_witness :
    true = true ∧
    ({ initConn with
        state := ConnState.ESTABLISHED, estimated_rtt := 93, dev_rtt := 17,
        current_rtt := 50 } : Conn).state = ConnState.ESTABLISHED ∧ 1 ≤ 1 ∧
    ({ initConn with
        state := ConnState.ESTABLISHED, estimated_rtt := 93, dev_rtt := 17,
        current_rtt := 50 } : Conn).sequence_number = initConn.sequence_number :=
  claims_C6 initConn [ChanEv.datagram bsData 50, ChanEv.timeout]
    { initConn with
        state := ConnState.ESTABLISHED, estimated_rtt := 93, dev_rtt := 17, current_rtt := 50 }
    (decodeHeader bsData) true 1 1 [140, 140, 161, 161] [] rfl (by decide) (by decide)

theorem byteAt_close_ne_nil (bs : List Nat) (h : byteAt bs 8 = RDT_CLOSE) : bs ≠ [] := by
  intro hnil
  exact absurd (hnil ▸ h) (by decide)

theorem finalWaitLoop_closes :
    ∀ (bss : List (List Nat)), (∀ bs ∈ bss, byteAt bs 8 = RDT_CLOSE) →
      ∀ rest : List ChanEv,
        finalWaitLoop (bss.map (fun bs => ChanEv.datagram bs 0) ++ ChanEv.timeout :: rest) =
          some (bss.length + 1, List.replicate (bss.length + 1) WAIT_TIME, rest) := by
  intro bss
  induction bss with
  | nil =>
      intro _ rest
      simp [finalWaitLoop]
  | cons b bss ih =>
      intro hclose rest
      have hb : b ≠ [] := byteAt_close_ne_nil b (hclose b (by simp))
      simp only [List.map_cons, List.cons_append, finalWaitLoop, List.append_eq]
      rw [if_neg (by simpa [List.length_eq_zero] using hb)]
      rw [ih (fun x hx => hclose x (by simp [hx])) rest]
      simp [List.replicate_succ]

theorem finalWaitLoop_no_timeout :
    ∀ evs : List ChanEv,
      (∀ e ∈ evs, ∃ bs el, e = ChanEv.datagram bs el ∧ byteAt bs 8 = RDT_CLOSE) →
      finalWaitLoop evs = none := by
  intro evs
  induction evs with
  | nil =>
      intro _
      rfl
  | cons e evs ih =>
      intro hevs
      obtain ⟨bs, el, rfl, hbs⟩ := hevs e (by simp)
      have hb : bs ≠ [] := byteAt_close_ne_nil bs hbs
      simp only [finalWaitLoop]
      rw [if_neg (by simpa [List.length_eq_zero] using hb)]
      rw [ih (fun x hx => hevs x (by simp [hx]))]

/-- C7 (confirmed): in the close-initiator's final wait state every wait
pushes the fixed deadline `WAIT_TIME = 4000` ms; each `CLOSE` that arrives
during the wait causes the final `ACK` to be sent again and the wait to
restart; and the loop proceeds to release the connection exactly when a
deadline expires with nothing received — on a trace of `CLOSE` arrivals
with no expiry it never terminates. -/
theorem claims_C7 (bss : List (List Nat)) (rest : List ChanEv)
    (hclose : ∀ bs ∈ bss, byteAt bs 8 = RDT_CLOSE) :
    WAIT_TIME = 4000 ∧
    finalWaitLoop (bss.map (fun bs => ChanEv.datagram bs 0) ++ ChanEv.timeout :: rest) =
      some (bss.length + 1, List.replicate (bss.length + 1) WAIT_TIME, rest) ∧
    (∀ evs : List ChanEv,
        (∀ e ∈ evs, ∃ bs el, e = ChanEv.datagram bs el ∧ byteAt bs 8 = RDT_CLOSE) →
        finalWaitLoop evs = none) :=
  ⟨rfl, finalWaitLoop_closes bss hclose rest,
    fun evs hevs => finalWaitLoop_no_timeout evs hevs⟩

/-- Witness for C7: one retransmitted `CLOSE` during the wait means two
`ACK` sends under two 4000 ms deadlines before the expiry ends the loop;
without the expiry the loop does not finish. -/
theorem claims_C7_witness :
    finalWaitLoop [ChanEv.datagram closeBytes 0, ChanEv.timeout] =
      some ([closeBytes].length + 1, List.replicate ([closeBytes].length + 1) WAIT_TIME, []) ∧
    finalWaitLoop [ChanEv.datagram closeBytes 0] = none := by
  have h := claims_C7 [closeBytes] [] (by decide)
  refine ⟨h.2.1, h.2.2 [ChanEv.datagram closeBytes 0] ?_⟩
  intro e he
  rw [List.mem_singleton] at he
  subst he
  exact ⟨closeBytes, 0, rfl, by decide⟩

/-- C8 (confirmed): calling `accept_connection` or `connect_to_remote` on a
connection that is not in `INIT`, and calling `send_data` or `receive_data`
on one that is not `ESTABLISHED`, is rejected before anything happens: the
result records only the refusal (an `exit(EXIT_FAILURE)` for `accept`, a
plain return for the other three) with the connection — state, sequence
number and RTT statistics — unchanged, no segment sent and no deadline
pushed. -/
theorem claims_C8 (c : Conn) (evs : List ChanEv) (data : List Nat) (len : Nat) :
    (c.state ≠ ConnState.INIT →
      accept_connection c evs = some (AcceptRes.fatalUsed c) ∧
      connect_to_remote c evs = some (ConnectRes.refused c)) ∧
    (c.state ≠ ConnState.ESTABLISHED →
      send_data c data len evs = some (SendRes.refused c) ∧
      receive_data c evs = some (RecvRes.refused c 0)) := by
  constructor
  · intro h
    constructor
    · unfold accept_connection
      rw [if_pos h]
    · unfold connect_to_remote
      rw [if_pos h]
  · intro h
    constructor
    · unfold send_data
      rw [if_pos h]
    · unfold receive_data
      rw [if_pos h]

/-- Witness for C8: a connection in state `FIN` satisfies both guards, and
all four operations refuse it unchanged. -/
theorem claims_C8_witness :
    (accept_connection cFin [] = some (AcceptRes.fatalUsed cFin) ∧
      connect_to_remote cFin [] = some (ConnectRes.refused cFin)) ∧
    (send_data cFin [] 0 [] = some (SendRes.refused cFin) ∧
      receive_data cFin [] = some (RecvRes.refused cFin 0)) :=
  ⟨(claims_C8 cFin [] [] 0).1 (by decide), (claims_C8 cFin [] [] 0).2 (by decide)⟩

theorem getD_range_map (data : List Nat) (len k : Nat) (hk : k < len) :
    ((List.range len).map (fun j => data.getD j 0)).getD k 0 = data.getD k 0 := by
  rw [List.getD_eq_getElem?_getD, List.getElem?_map, List.getElem?_range hk]
  rfl

/-- C10 (confirmed): `send_data` never checks `length`: a call is refused
exactly when the connection is not `ESTABLISHED`, independently of the
length argument, and the segment it builds consists of the 12 header bytes
followed by exactly `length` caller bytes — byte `i` of the segment is
caller byte `i - 12` for every `12 ≤ i < 12 + length`, with no truncation at
`MAX_SEG_SIZE`, so keeping `length ≤ MAX_DATA_SIZE = 1388` is entirely the
caller's responsibility. -/
theorem claims_C10 (c : Conn) (data : List Nat) (len : Nat) (evs : List ChanEv) (i : Nat) :
    (send_data c data len evs = some (SendRes.refused c) ↔
      c.state ≠ ConnState.ESTABLISHED) ∧
    (headerSize ≤ i → i < headerSize + len →
      (dataSegBytes c.sequence_number data len).getD i 0 = data.getD (i - headerSize) 0) ∧
    (dataSegBytes c.sequence_number data len).length = headerSize + len ∧
    MAX_DATA_SIZE = 1388 := by
  refine ⟨⟨?_, ?_⟩, ?_, ?_, rfl⟩
  · intro h
    intro hest
    unfold send_data at h
    rw [if_neg (by simp [hest])] at h
    split at h
    · cases h
    · rename_i v c2 n2 ds2 rem2 hm
      injection h with h
      cases h
  · intro h
    unfold send_data
    rw [if_pos h]
  · intro h1 h2
    have hlen : (headerBytes c.sequence_number 0 RDT_DATA).length = 12 := rfl
    unfold dataSegBytes
    have h1' : 12 ≤ i := h1
    have h2' : i < 12 + len := h2
    rw [List.getD_append_right _ _ _ _ (by rw [hlen]; exact h1), hlen]
    exact getD_range_map data len (i - 12) (by omega)
  · simp [dataSegBytes, headerBytes, encodeWord, headerSize]
    omega

/-- Witness for C10: with `length = 1389 > MAX_DATA_SIZE`, byte 1400 of the
built segment — one past the end of the 1400-byte stack buffer — is caller
byte 1388, and the length bound is indeed 1388. -/
theorem claims_C10_witness :
    (dataSegBytes cEst.sequence_number (List.replicate 1390 7) 1389).getD 1400 0 =
      (List.replicate 1390 7).getD (1400 - headerSize) 0 ∧
    MAX_DATA_SIZE < 1389 ∧ MAX_SEG_SIZE ≤ 1400 :=
  ⟨(claims_C10 cEst (List.replicate 1390 7) 1389 [] 1400).2.1 (by decide) (by decide),
    by decide, by decide⟩

end RDT
